import Mathlib

/-!
Verification of the click-and-track manual video-annotation tool.

The development shallowly embeds the tool's core logic in Lean:
JavaScript numbers that are known to be finite are modelled as rationals
(`ℚ`), `Math.round`/`Math.ceil` as the corresponding integer operations,
and the possibly-`undefined`/`NaN` values arising in the smart-navigation
hook as `Option` values (`none` = `NaN`/`undefined`).  Strings are Lean
strings; the JavaScript built-ins `split`, `trim` and `includes` are
modelled by executable list-level functions below.
-/

namespace ClickTrack

/-- Model of JavaScript Math.round: round half toward positive infinity. -/
def jsRound (q : ℚ) : ℤ := ⌊q + 1/2⌋

/-- From src/utils.ts (getFrameIndex): converts a timestamp in
milliseconds to a 0-based frame index; returns 0 for `fps <= 0`. -/
def getFrameIndex (timeMs : ℚ) (fps : ℚ) : ℤ :=
  if fps ≤ 0 then 0 else jsRound (timeMs * fps / 1000)

/-- From src/utils.ts (getFrameTime): converts a frame index back to a
timestamp in milliseconds; returns 0 for `fps <= 0`. -/
def getFrameTime (frameIndex : ℤ) (fps : ℚ) : ℚ :=
  if fps ≤ 0 then 0 else (frameIndex * 1000) / fps

/-- From src/utils.ts (isTrackingFrame): whether a timestamp aligns with
the configured sampling rate. -/
def isTrackingFrame (timestampMs fps rateNum rateDen : ℚ) : Bool :=
  if fps ≤ 0 then false
  else
    let intervalSec := rateDen / rateNum
    let intervalFrames := jsRound (intervalSec * fps)
    if intervalFrames ≤ 0 then true
    else decide (getFrameIndex timestampMs fps % intervalFrames = 0)

/-- From src/types.ts (TrackPoint).  The derived string field `id` is
presentation metadata (it is written but never consulted by any of the
logic verified here), so it is omitted from the embedding; all logic
compares points by their numeric fields. -/
structure TrackPoint where
  timestamp : ℚ
  objectId : ℚ
  x : ℚ
  y : ℚ
deriving DecidableEq

/-- From src/types.ts (AppSettings). -/
structure AppSettings where
  samplingRateNum : ℚ
  samplingRateDen : ℚ
  trailLength : ℚ
deriving DecidableEq

/-- From src/types.ts (ViewTransform). -/
structure ViewTransform where
  x : ℚ
  y : ℚ
  scale : ℚ
deriving DecidableEq

/-- The project-level session state held by useProjectState
(src/unnamed/part_002): points, active object, object count, dirty flag. -/
structure ProjectState where
  points : List TrackPoint
  activeObjectId : ℚ
  numObjects : ℚ
  isDirty : Bool
deriving DecidableEq

/-- From useProjectState (src/unnamed/part_002, addPoint): removes any
existing point with the same exact timestamp and objectId, appends the
new point, and marks the store dirty. -/
def addPoint (p : TrackPoint) (s : ProjectState) : ProjectState :=
  { s with
    points :=
      (s.points.filter
        (fun pt => !(decide (pt.timestamp = p.timestamp) &&
                     decide (pt.objectId = p.objectId)))) ++ [p]
    isDirty := true }

/-- From useProjectState (src/unnamed/part_002, deletePoint): removes
every point whose frame index (at the session fps) matches the frame
index of the given time and whose objectId matches, and marks dirty. -/
def deletePoint (videoFps : ℚ) (time : ℚ) (objId : ℚ) (s : ProjectState) :
    ProjectState :=
  let targetFrame := getFrameIndex time videoFps
  { s with
    points :=
      s.points.filter
        (fun p => !(decide (getFrameIndex p.timestamp videoFps = targetFrame) &&
                    decide (p.objectId = objId)))
    isDirty := true }

/-! Models of the JavaScript string built-ins used by the CSV code -/

/-- Whitespace recognised by the model of JavaScript String.trim
(the characters that can occur in the CSV texts considered here). -/
def isWS (c : Char) : Bool := c = ' ' || c = '\t' || c = '\n' || c = '\r'

/-- Model of JavaScript String.split with a single-character separator,
at the character-list level.  Always returns at least one chunk. -/
def splitCharList (sep : Char) : List Char → List (List Char)
  | [] => [[]]
  | c :: cs =>
    let r := splitCharList sep cs
    if c = sep then [] :: r else (c :: r.headD []) :: r.tail

/-- Model of JavaScript String.split with a single-character separator. -/
def jsSplit (sep : Char) (s : String) : List String :=
  (splitCharList sep s.toList).map String.mk

/-- Model of JavaScript String.trim at the character-list level. -/
def trimList (l : List Char) : List Char :=
  ((l.dropWhile isWS).reverse.dropWhile isWS).reverse

/-- Model of JavaScript String.trim. -/
def jsTrim (s : String) : String := String.mk (trimList s.toList)

/-- Model of JavaScript String.includes. -/
def jsIncludes (needle hay : String) : Bool :=
  decide (needle.toList <:+: hay.toList)

/-- Digit-list to numeric value, used by the model of Number(). -/
def digitsVal (l : List Char) : ℕ :=
  l.foldl (fun acc c => 10 * acc + (c.toNat - '0'.toNat)) 0

/-- Model of the JavaScript Number() built-in on the inputs the CSV code
feeds it: plain decimal literals with an optional sign and an optional
decimal point (the notation the export path emits and the import path
reads).  The empty string converts to 0 as in JavaScript; anything else
outside this decimal grammar is NaN, modelled as `none`. -/
def jsNum (s : String) : Option ℚ :=
  let t := trimList s.toList
  if t = [] then some 0
  else
    let (sign, body) :=
      match t with
      | '-' :: rest => ((-1 : ℚ), rest)
      | '+' :: rest => ((1 : ℚ), rest)
      | _ => ((1 : ℚ), t)
    match splitCharList '.' body with
    | [ip] =>
      if ip ≠ [] ∧ ip.all (·.isDigit) then some (sign * digitsVal ip) else none
    | [ip, fp] =>
      if (ip ≠ [] ∨ fp ≠ []) ∧ ip.all (·.isDigit) ∧ fp.all (·.isDigit) then
        some (sign * ((digitsVal ip : ℚ) + (digitsVal fp : ℚ) / 10 ^ fp.length))
      else none
    | _ => none

/-- Left-pads a string with zeros to the given length. -/
def padZeros (s : String) (k : ℕ) : String :=
  String.mk (List.replicate (k - s.length) '0') ++ s

/-- Decimal printer for rationals with a finite decimal expansion of at
most 20 places: the model of JavaScript number-to-string conversion on
such values (every value in the concrete instances below has one).
Values outside that range print as the empty string and are simply not
`csvSafe` (defined with the round-trip theorem below). -/
def decimalOfRat (q : ℚ) : String :=
  match (List.range 21).find? (fun k => (q * (10 : ℚ) ^ k).den = 1) with
  | none => ""
  | some k =>
    let n : ℤ := (q * (10 : ℚ) ^ k).num
    let sign := if n < 0 then "-" else ""
    let a := n.natAbs
    if k = 0 then sign ++ toString a
    else sign ++ toString (a / 10 ^ k) ++ "." ++ padZeros (toString (a % 10 ^ k)) k

/-! CSV import/export (src/utils.ts) -/

/-- One iteration of the parseCSV loop (src/utils.ts, lines 63-76): trim
the line, skip it when blank, split it on commas, convert the first four
fields with Number() (modelled by the parameter `num`; `none` = NaN) and
keep the row only when all four convert.  As in the source, the derived
`id` string is not part of the comparison-relevant data (see
`TrackPoint`). -/
def parseLine (num : String → Option ℚ) (raw : String) : Option TrackPoint :=
  let line := jsTrim raw
  if line = "" then none
  else
    let fields := (jsSplit ',' line).map num
    match fields.getD 0 none, fields.getD 1 none,
          fields.getD 2 none, fields.getD 3 none with
    | some ts, some objId, some x, some y => some ⟨ts, objId, x, y⟩
    | _, _, _, _ => none

/-- From src/utils.ts (parseCSV): split on newlines, skip the header if
the first line contains "timestamp_ms", and parse each remaining line
with the per-line loop body `parseLine`.  `num` models the Number()
built-in. -/
def parseCSV (num : String → Option ℚ) (csvText : String) : List TrackPoint :=
  let lines := jsSplit '\n' csvText
  let startIndex := if jsIncludes "timestamp_ms" (lines.headD "") then 1 else 0
  (lines.drop startIndex).filterMap (parseLine num)

/-- The comparator of the sort in pointsToCSV (src/utils.ts, lines 83-86)
as a Boolean "less-or-equal": ascending by timestamp, then by objectId.
JavaScript's sort is stable, hence the merge sort below. -/
def pointLE (a b : TrackPoint) : Bool :=
  decide (a.timestamp < b.timestamp ∨
    (a.timestamp = b.timestamp ∧ a.objectId ≤ b.objectId))

/-- From src/utils.ts (pointsToCSV): sort a copy of the points by
(timestamp, objectId) ascending, then emit a header line followed by one
`ts,objId,x,y` line per point.  `toStr` models the JavaScript
number-to-string conversion used by the template literal. -/
def pointsToCSV (toStr : ℚ → String) (points : List TrackPoint) : String :=
  let sorted := points.mergeSort pointLE
  sorted.foldl
    (fun csv p =>
      csv ++ toStr p.timestamp ++ "," ++ toStr p.objectId ++ "," ++
        toStr p.x ++ "," ++ toStr p.y ++ "\n")
    "timestamp_ms,object_id,x,y\n"

/-- The tuple view of a point used by the round-trip property. -/
def toTuple (p : TrackPoint) : ℚ × ℚ × ℚ × ℚ := (p.timestamp, p.objectId, p.x, p.y)

/-- The multiset of (timestamp, objectId, x, y) tuples of a point list. -/
def tupleMultiset (pts : List TrackPoint) : Multiset (ℚ × ℚ × ℚ × ℚ) :=
  (pts.map toTuple : List _)

/-- The contract the round-trip theorem needs from the number formatting
and parsing built-ins on a given value: printing then parsing recovers
the value exactly, and the printed form is a nonempty string containing
neither separator and no leading or trailing whitespace (true of
JavaScript's String and Number on every finite double, modelled here on
ℚ). -/
def csvSafe (num : String → Option ℚ) (toStr : ℚ → String) (q : ℚ) : Prop :=
  num (toStr q) = some q ∧
  '\n' ∉ (toStr q).toList ∧
  ',' ∉ (toStr q).toList ∧
  (toStr q).toList ≠ [] ∧
  isWS ((toStr q).toList.headD ' ') = false ∧
  isWS ((toStr q).toList.getLastD ' ') = false

instance csvSafeDecidable (num : String → Option ℚ) (toStr : ℚ → String)
    (q : ℚ) : Decidable (csvSafe num toStr q) := by
  unfold csvSafe; infer_instance

/-- The four numeric fields of every point in a list. -/
def fieldValues (pts : List TrackPoint) : List ℚ :=
  pts.flatMap (fun p => [p.timestamp, p.objectId, p.x, p.y])

/-! App-level handlers (src/src/App.tsx) -/

/-- From src/src/App.tsx (handleCSVImport, lines 373-392), after the file
has been read: replace the whole point set with the parsed one, set
numObjects to the maximum imported objectId with 1 as the reduce seed,
reset the active object to 1, and clear the dirty flag (markAsClean). -/
def handleCSVImport (num : String → Option ℚ) (text : String)
    (s : ProjectState) : ProjectState :=
  let newPoints := parseCSV num text
  { s with
    points := newPoints
    numObjects := newPoints.foldl (fun acc p => max acc p.objectId) 1
    activeObjectId := 1
    isDirty := false }

/-- From src/src/App.tsx (deleteCurrent, lines 394-408): a no-op while
playing; otherwise deletes the active object's point at the current time
only when the current time is a tracking frame. -/
def deleteCurrent (currentTime videoFps : ℚ) (settings : AppSettings)
    (isPlaying : Bool) (s : ProjectState) : ProjectState :=
  if isPlaying then s
  else if isTrackingFrame currentTime videoFps
      settings.samplingRateNum settings.samplingRateDen then
    deletePoint videoFps currentTime s.activeObjectId s
  else s

/-! Logging interaction (useCanvasInteraction, in src/src/hooks/useViewport.ts) -/

/-- From useCanvasInteraction (src/src/hooks/useViewport.ts, handleLogPoint,
lines 303-337): a no-op when the video has no dimensions, while playing,
off a tracking frame, or when the click maps outside the video bounds;
otherwise logs a point for the active object at the exact grid timestamp
of the current frame.  `clickX`/`clickY` are the container-relative
pointer coordinates (`e.clientX - rect.left` etc. in the source). -/
def handleLogPoint (currentTime videoFps : ℚ) (settings : AppSettings)
    (isPlaying : Bool) (activeObjectId : ℚ) (transform : ViewTransform)
    (videoW videoH : ℚ) (clickX clickY : ℚ) (s : ProjectState) : ProjectState :=
  if videoW = 0 then s
  else
    let isValidFrame := isTrackingFrame currentTime videoFps
      settings.samplingRateNum settings.samplingRateDen
    if isPlaying || !isValidFrame then s
    else
      let videoX := (clickX - transform.x) / transform.scale
      let videoY := (clickY - transform.y) / transform.scale
      if videoX < 0 ∨ videoX > videoW ∨ videoY < 0 ∨ videoY > videoH then s
      else
        let frameIndex := getFrameIndex currentTime videoFps
        let logTime := getFrameTime frameIndex videoFps
        addPoint ⟨logTime, activeObjectId, videoX, videoY⟩ s

/-! Viewport constraint (src/src/hooks/useViewport.ts) -/

/-- MIN_SCALE from src/src/hooks/useViewport.ts. -/
def MIN_SCALE : ℚ := 1

/-- MAX_SCALE from src/src/hooks/useViewport.ts. -/
def MAX_SCALE : ℚ := 10

/-- From src/src/hooks/useViewport.ts (getConstrainedTransform, lines
67-100): clamp the scale to [min(fitScale, MIN_SCALE), MAX_SCALE]; along
each axis, center the content when it fits in the container, otherwise
clamp the offset to [container - scaled, 0].  Returns the proposal
unchanged when the video has no width (the `!videoDimensions.w` guard). -/
def getConstrainedTransform (cw ch vw vh : ℚ) (proposed : ViewTransform) :
    ViewTransform :=
  if vw = 0 then proposed
  else
    let fitScale := min (cw / vw) (ch / vh)
    let minAllowedScale := min fitScale MIN_SCALE
    let newScale := max minAllowedScale (min proposed.scale MAX_SCALE)
    let scaledW := vw * newScale
    let scaledH := vh * newScale
    let newX :=
      if scaledW ≤ cw then (cw - scaledW) / 2
      else max (cw - scaledW) (min proposed.x 0)
    let newY :=
      if scaledH ≤ ch then (ch - scaledH) / 2
      else max (ch - scaledH) (min proposed.y 0)
    ⟨newX, newY, newScale⟩

/-! Playback clock (src/src/hooks/useVideoSynchronization.ts) -/

/-- The sampling interval in frames as computed in the animation loop
(src/src/hooks/useVideoSynchronization.ts, lines 133-134):
`Math.max(1, Math.round((den/num) * fps))`. -/
def intervalFramesOf (settings : AppSettings) (videoFps : ℚ) : ℤ :=
  max 1 (jsRound (settings.samplingRateDen / settings.samplingRateNum * videoFps))

/-- The next auto-pause target frame (loop, lines 137-142):
`ceil((currentFrame + 0.1) / intervalFrames) * intervalFrames`, bumped by
one more interval if that does not exceed the current frame. -/
def computeNextTargetFrame (currentFrame intervalFrames : ℤ) : ℤ :=
  let t := ⌈((currentFrame : ℚ) + 0.1) / (intervalFrames : ℚ)⌉ * intervalFrames
  if t ≤ currentFrame then t + intervalFrames else t

/-- The clock state that one tick of the animation loop reads and
writes: the reported current time, the playing flag, and the remembered
pause target (`nextPauseTimeRef`, `null` = `none`). -/
structure SyncState where
  currentTime : ℚ
  isPlaying : Bool
  nextPauseTime : Option ℚ
deriving DecidableEq

/-- One tick of the animation loop (src/src/hooks/useVideoSynchronization.ts,
`loop`, lines 123-157) given the decoder-reported time `nowMs`: report
the time; when playing with a positive sampling rate and the space
modifier up, remember (or keep) the pause target, and when within 85% of
a frame duration of it, snap the clock exactly to the target, stop, and
clear the target. -/
def loopTick (videoFps : ℚ) (settings : AppSettings) (isSpaceHeld : Bool)
    (nowMs : ℚ) (s : SyncState) : SyncState :=
  let s1 : SyncState := { s with currentTime := nowMs }
  if s.isPlaying && decide (settings.samplingRateNum > 0) && !isSpaceHeld then
    let intervalFrames := intervalFramesOf settings videoFps
    let currentFrame := getFrameIndex nowMs videoFps
    let targetTime :=
      match s.nextPauseTime with
      | none => getFrameTime (computeNextTargetFrame currentFrame intervalFrames) videoFps
      | some t => t
    let remaining := targetTime - nowMs
    let frameDurationMs := 1000 / videoFps
    if remaining ≤ frameDurationMs * 0.85 then
      { currentTime := targetTime, isPlaying := false, nextPauseTime := none }
    else
      { s1 with nextPauseTime := some targetTime }
  else s1

/-! Smart navigation (src/src/hooks/useSmartNavigation.ts)

The hook declares a required prop `fps : number`, but its one call site
(src/src/App.tsx, lines 123-130) does not pass it, so at run time `fps`
is `undefined` and every frame-index computation on it is NaN.  The
embedding therefore takes `fps? : Option ℚ` with `none` standing for
`undefined`/NaN, and mirrors JavaScript's comparison semantics (every
comparison with NaN is false). -/

/-- getFrameIndex under a possibly-undefined fps: `undefined <= 0` is
false in JavaScript, so the round branch runs and yields NaN. -/
def getFrameIndexJS (timeMs : ℚ) : Option ℚ → Option ℤ
  | some fps => some (getFrameIndex timeMs fps)
  | none => none

/-- getFrameTime on a possibly-NaN frame index and possibly-undefined
fps: NaN propagates through the arithmetic. -/
def getFrameTimeJS : Option ℤ → Option ℚ → Option ℚ
  | some f, some fps => some (getFrameTime f fps)
  | _, _ => none

/-- JavaScript `>` on possibly-NaN integers: false when either side is NaN. -/
def jsGtZ : Option ℤ → Option ℤ → Bool
  | some a, some b => decide (a > b)
  | _, _ => false

/-- NaN-propagating addition on possibly-NaN integers. -/
def jsAddZ : Option ℤ → Option ℤ → Option ℤ
  | some a, some b => some (a + b)
  | _, _ => none

/-- `Math.round(samplingIntervalSec * fps)` from the hook (lines 32-34)
under a possibly-undefined fps. -/
def navIntervalFrames (settings : AppSettings) : Option ℚ → Option ℤ
  | some fps => some (jsRound (settings.samplingRateDen / settings.samplingRateNum * fps))
  | none => none

/-- From src/src/hooks/useSmartNavigation.ts (jumpToNext, lines 68-98).
Result: `none` when no seek is triggered (playing), otherwise
`some target` where the target itself is `none` when the seek time is
NaN.  `reduce` without a seed is folded from the first element. -/
def jumpToNext (visiblePoints : List TrackPoint) (activeObjectId currentTime : ℚ)
    (isPlaying : Bool) (settings : AppSettings) (fps? : Option ℚ) :
    Option (Option ℚ) :=
  if isPlaying then none
  else
    let relevant := visiblePoints.filter
      (fun p => decide (p.objectId = activeObjectId) &&
        jsGtZ (getFrameIndexJS p.timestamp fps?) (getFrameIndexJS currentTime fps?))
    match relevant with
    | p :: rest =>
      some (some ((rest.foldl (fun a b => if a.timestamp < b.timestamp then a else b) p).timestamp))
    | [] =>
      some (getFrameTimeJS
        (jsAddZ (getFrameIndexJS currentTime fps?) (navIntervalFrames settings fps?)) fps?)

/-- From src/src/hooks/useSmartNavigation.ts (jumpToFirst, lines 100-121). -/
def jumpToFirst (visiblePoints : List TrackPoint) (activeObjectId currentTime : ℚ)
    (isPlaying : Bool) (fps? : Option ℚ) : Option (Option ℚ) :=
  if isPlaying then none
  else
    let relevant := visiblePoints.filter (fun p => decide (p.objectId = activeObjectId))
    match relevant with
    | p :: rest =>
      let first := rest.foldl (fun a b => if a.timestamp < b.timestamp then a else b) p
      if jsGtZ (getFrameIndexJS currentTime fps?) (getFrameIndexJS first.timestamp fps?) then
        some (some first.timestamp)
      else some (some 0)
    | [] => some (some 0)

/-- From src/src/hooks/useSmartNavigation.ts (jumpToFinal, lines 123-133):
seeks the active object's latest visible point; no seek when it has none. -/
def jumpToFinal (visiblePoints : List TrackPoint) (activeObjectId : ℚ)
    (isPlaying : Bool) : Option (Option ℚ) :=
  if isPlaying then none
  else
    let relevant := visiblePoints.filter (fun p => decide (p.objectId = activeObjectId))
    match relevant with
    | p :: rest =>
      some (some ((rest.foldl (fun a b => if a.timestamp > b.timestamp then a else b) p).timestamp))
    | [] => none

/-- The visible-point filter computed in src/src/App.tsx (lines 112-121):
points on the sampling grid at the session fps. -/
def appVisiblePoints (points : List TrackPoint) (videoFps : ℚ)
    (settings : AppSettings) : List TrackPoint :=
  points.filter (fun p =>
    isTrackingFrame p.timestamp videoFps settings.samplingRateNum settings.samplingRateDen)

/-- jumpToNext as the application actually wires it (src/src/App.tsx,
lines 123-130): the `fps` prop is omitted from the call, so the hook
receives `undefined` (`none`) for it, whatever `videoFps` the app holds. -/
def appJumpToNext (points : List TrackPoint) (videoFps : ℚ)
    (settings : AppSettings) (activeObjectId currentTime : ℚ)
    (isPlaying : Bool) : Option (Option ℚ) :=
  jumpToNext (appVisiblePoints points videoFps settings) activeObjectId currentTime
    isPlaying settings none

/-- jumpToFirst as wired by src/src/App.tsx (fps prop omitted). -/
def appJumpToFirst (points : List TrackPoint) (videoFps : ℚ)
    (settings : AppSettings) (activeObjectId currentTime : ℚ)
    (isPlaying : Bool) : Option (Option ℚ) :=
  jumpToFirst (appVisiblePoints points videoFps settings) activeObjectId currentTime
    isPlaying none

/-- jumpToFinal as wired by src/src/App.tsx. -/
def appJumpToFinal (points : List TrackPoint) (videoFps : ℚ)
    (settings : AppSettings) (activeObjectId : ℚ)
    (isPlaying : Bool) : Option (Option ℚ) :=
  jumpToFinal (appVisiblePoints points videoFps settings) activeObjectId isPlaying

/-- The exact (timestamp, objectId) key predicate used by addPoint. -/
def sameKey (p pt : TrackPoint) : Bool :=
  decide (pt.timestamp = p.timestamp) && decide (pt.objectId = p.objectId)

/-- The characters of one data row emitted by pointsToCSV (without the
trailing newline). -/
def rowChars (toStr : ℚ → String) (p : TrackPoint) : List Char :=
  (toStr p.timestamp).toList ++ ',' :: ((toStr p.objectId).toList ++
    ',' :: ((toStr p.x).toList ++ ',' :: (toStr p.y).toList))

/-- csvSafe for all four fields of a point. -/
def csvSafePoint (num : String → Option ℚ) (toStr : ℚ → String)
    (p : TrackPoint) : Prop :=
  csvSafe num toStr p.timestamp ∧ csvSafe num toStr p.objectId ∧
    csvSafe num toStr p.x ∧ csvSafe num toStr p.y

/-! Theorems.  Each claim of the specification gets exactly one theorem,
stated over the embedded definitions above. -/

set_option maxRecDepth 100000

theorem filter_sameKey_addPoint (p : TrackPoint) (s : ProjectState) :
    (addPoint p s).points.filter (sameKey p) = [p] := by
  unfold addPoint
  rw [List.filter_append, List.filter_filter]
  have h1 : (s.points.filter fun pt => sameKey p pt && !sameKey p pt) = [] := by
    simp [Bool.and_not_self]
  simp only [sameKey] at h1 ⊢
  rw [h1]
  simp [sameKey]

/-- C1 counterexample: with fps = 30, inserting p1 at timestamp 1000 and
then p2 at timestamp 1010 (both frame 30, same objectId 1) leaves TWO
points at the (frame 30, object 1) key, not one: addPoint matches by
exact timestamp, not frame index. -/
theorem c1_frame_key_counterexample :
    let fps : ℚ := 30
    let p1 : TrackPoint := ⟨1000, 1, 0, 0⟩
    let p2 : TrackPoint := ⟨1010, 1, 5, 5⟩
    let s := addPoint p2 (addPoint p1 ⟨[], 1, 1, false⟩)
    getFrameIndex p1.timestamp fps = getFrameIndex p2.timestamp fps ∧
    p1.objectId = p2.objectId ∧
    (s.points.filter (fun pt =>
      decide (getFrameIndex pt.timestamp fps = getFrameIndex p2.timestamp fps) &&
      decide (pt.objectId = p2.objectId))).length = 2 := by
  with_unfolding_all decide

/-- C1 (amended): for every point store state and every two insertions
of points p1 then p2 with identical exact (timestamp, objectId), the
resulting store contains exactly one point at that exact (timestamp,
objectId) key, namely p2 (last write wins). -/
theorem c1_last_write_wins (s : ProjectState) (p1 p2 : TrackPoint)
    (hts : p1.timestamp = p2.timestamp) (hobj : p1.objectId = p2.objectId) :
    (addPoint p2 (addPoint p1 s)).points.filter
      (fun pt => decide (pt.timestamp = p2.timestamp) &&
                 decide (pt.objectId = p2.objectId)) = [p2] := by
  have := filter_sameKey_addPoint p2 (addPoint p1 s)
  simpa [sameKey] using this

/-- C1 witness: the amended claim at a concrete instance. -/
theorem c1_last_write_wins_witness :
    (1000 : ℚ) = 1000 ∧ (1 : ℚ) = 1 ∧
    (addPoint ⟨1000, 1, 7, 8⟩ (addPoint ⟨1000, 1, 0, 0⟩ ⟨[], 1, 1, false⟩)).points.filter
      (fun pt => decide (pt.timestamp = (1000 : ℚ)) &&
                 decide (pt.objectId = (1 : ℚ))) = [⟨1000, 1, 7, 8⟩] :=
  ⟨rfl, rfl,
    c1_last_write_wins ⟨[], 1, 1, false⟩ ⟨1000, 1, 0, 0⟩ ⟨1000, 1, 7, 8⟩ rfl rfl⟩

/-- C2 counterexample: importing a CSV whose maximum objectId (3) is
below the current numObjects (5) makes numObjects decrease to 3: the
code reduces over the imported set with seed 1 and ignores the existing
numObjects, contradicting "numObjects becomes max(existing, imported
max)" and "never decreases". -/
theorem c2_import_counterexample :
    let s : ProjectState := ⟨[], 1, 5, false⟩
    let r := handleCSVImport jsNum "timestamp_ms,object_id,x,y\n1000,3,5,5" s
    r.numObjects = 3 ∧ ¬(r.numObjects = max s.numObjects 3) ∧
    r.numObjects < s.numObjects := by
  with_unfolding_all decide

theorem foldl_max_le_init {pts : List TrackPoint} {a : ℚ} :
    a ≤ pts.foldl (fun acc p => max acc p.objectId) a := by
  induction pts generalizing a with
  | nil => simp
  | cons p ps ih =>
    simp only [List.foldl_cons]
    exact le_trans (le_max_left a p.objectId) ih

theorem foldl_max_mem_le {pts : List TrackPoint} {a : ℚ} {p : TrackPoint}
    (hp : p ∈ pts) : p.objectId ≤ pts.foldl (fun acc p => max acc p.objectId) a := by
  induction pts generalizing a with
  | nil => cases hp
  | cons q qs ih =>
    simp only [List.foldl_cons]
    rcases List.mem_cons.mp hp with h | h
    · subst h
      exact le_trans (le_max_right a p.objectId) foldl_max_le_init
    · exact ih h

theorem foldl_max_cases {pts : List TrackPoint} {a : ℚ} :
    pts.foldl (fun acc p => max acc p.objectId) a = a ∨
      ∃ p ∈ pts, pts.foldl (fun acc p => max acc p.objectId) a = p.objectId := by
  induction pts generalizing a with
  | nil => exact Or.inl rfl
  | cons q qs ih =>
    simp only [List.foldl_cons]
    rcases @ih (max a q.objectId) with h | ⟨p, hp, h⟩
    · rcases max_cases a q.objectId with ⟨he, _⟩ | ⟨he, _⟩
      · exact Or.inl (h.trans he)
      · exact Or.inr ⟨q, List.mem_cons_self q qs, h.trans he⟩
    · exact Or.inr ⟨p, List.mem_cons_of_mem q hp, h⟩

/-- C2 (amended): a CSV import replaces the point set with the parsed
set, resets the active object to 1, clears the dirty flag, and sets
numObjects to the maximum imported objectId with seed 1 — ignoring the
previous numObjects, so numObjects can decrease below its prior value:
it is at least 1, bounds every imported objectId, and is either 1 or
one of the imported objectIds. -/
theorem c2_import_replaces_state (num : String → Option ℚ) (text : String)
    (s : ProjectState) :
    let r := handleCSVImport num text s
    r.points = parseCSV num text ∧
    r.activeObjectId = 1 ∧
    r.isDirty = false ∧
    1 ≤ r.numObjects ∧
    (∀ p ∈ r.points, p.objectId ≤ r.numObjects) ∧
    (r.numObjects = 1 ∨ ∃ p ∈ r.points, r.numObjects = p.objectId) := by
  refine ⟨rfl, rfl, rfl, foldl_max_le_init, ?_, ?_⟩
  · intro p hp
    exact foldl_max_mem_le hp
  · exact foldl_max_cases

/-- C2 witness: the amended claim at a concrete import. -/
theorem c2_import_replaces_state_witness :
    let r := handleCSVImport jsNum "timestamp_ms,object_id,x,y\n1000,3,5,5" ⟨[], 1, 5, false⟩
    r.points = parseCSV jsNum "timestamp_ms,object_id,x,y\n1000,3,5,5" ∧
    r.activeObjectId = 1 ∧
    r.isDirty = false ∧
    1 ≤ r.numObjects ∧
    (∀ p ∈ r.points, p.objectId ≤ r.numObjects) ∧
    (r.numObjects = 1 ∨ ∃ p ∈ r.points, r.numObjects = p.objectId) :=
  c2_import_replaces_state jsNum "timestamp_ms,object_id,x,y\n1000,3,5,5" ⟨[], 1, 5, false⟩

/-- C10 (implicit): deletePoint always sets the dirty flag, even when no
stored point matches the (frame, objectId) key and the point list is
unchanged; activeObjectId and numObjects are never touched by it. -/
theorem c10_deletePoint_always_dirty (videoFps time objId : ℚ) (s : ProjectState) :
    let r := deletePoint videoFps time objId s
    r.isDirty = true ∧
    r.activeObjectId = s.activeObjectId ∧
    r.numObjects = s.numObjects ∧
    ((∀ p ∈ s.points,
        ¬(getFrameIndex p.timestamp videoFps = getFrameIndex time videoFps ∧
          p.objectId = objId)) →
      r.points = s.points) := by
  refine ⟨rfl, rfl, rfl, fun h => ?_⟩
  apply List.filter_eq_self.mpr
  intro p hp
  have := h p hp
  simp only [Bool.not_eq_eq_eq_not, Bool.not_true, Bool.and_eq_false_imp,
    decide_eq_true_eq, decide_eq_false_iff_not]
  intro hf hobj
  exact this ⟨hf, hobj⟩

/-- C10 witness: a no-op deletion (no matching point) still sets the
dirty flag and leaves everything else unchanged. -/
theorem c10_deletePoint_always_dirty_witness :
    let s : ProjectState := ⟨[⟨0, 1, 5, 5⟩], 1, 1, false⟩
    let r := deletePoint 30 1000 2 s
    r.isDirty = true ∧
    r.activeObjectId = s.activeObjectId ∧
    r.numObjects = s.numObjects ∧
    r.points = s.points := by
  have h := c10_deletePoint_always_dirty 30 1000 2 ⟨[⟨0, 1, 5, 5⟩], 1, 1, false⟩
  exact ⟨h.1, h.2.1, h.2.2.1, h.2.2.2 (by with_unfolding_all decide)⟩

/-- C3: while playback is active or the current frame is off the
sampling grid, deleteCurrent leaves the whole project state (points and
dirty flag included) unchanged; and the logging action is likewise a
silent no-op while playing, off a tracking frame, or when the clicked
screen position maps outside [0, videoW] x [0, videoH] in video space. -/
theorem c3_invalid_action_noop (currentTime videoFps : ℚ) (settings : AppSettings)
    (isPlaying : Bool) (s : ProjectState) (activeObjectId : ℚ)
    (transform : ViewTransform) (videoW videoH clickX clickY : ℚ) :
    ((isPlaying = true ∨
        isTrackingFrame currentTime videoFps settings.samplingRateNum
          settings.samplingRateDen = false) →
      deleteCurrent currentTime videoFps settings isPlaying s = s) ∧
    ((isPlaying = true ∨
        isTrackingFrame currentTime videoFps settings.samplingRateNum
          settings.samplingRateDen = false ∨
        (clickX - transform.x) / transform.scale < 0 ∨
        (clickX - transform.x) / transform.scale > videoW ∨
        (clickY - transform.y) / transform.scale < 0 ∨
        (clickY - transform.y) / transform.scale > videoH) →
      handleLogPoint currentTime videoFps settings isPlaying activeObjectId
        transform videoW videoH clickX clickY s = s) := by
  constructor
  · intro h
    unfold deleteCurrent
    rcases h with h | h
    · simp [h]
    · simp [h]
  · intro h
    unfold handleLogPoint
    by_cases hw : videoW = 0
    · simp [hw]
    · rw [if_neg hw]
      simp only
      by_cases hguard : (isPlaying ||
          !isTrackingFrame currentTime videoFps settings.samplingRateNum
            settings.samplingRateDen) = true
      · rw [if_pos hguard]
      · rw [if_neg hguard]
        simp only [Bool.or_eq_true, Bool.not_eq_eq_eq_not, Bool.not_true,
          not_or, Bool.not_eq_true] at hguard
        obtain ⟨hplay, htrack⟩ := hguard
        have hbounds : (clickX - transform.x) / transform.scale < 0 ∨
            (clickX - transform.x) / transform.scale > videoW ∨
            (clickY - transform.y) / transform.scale < 0 ∨
            (clickY - transform.y) / transform.scale > videoH := by
          rcases h with h | h | h
          · rw [hplay] at h; cases h
          · rw [Bool.not_eq_false] at htrack; rw [htrack] at h; cases h
          · exact h
        rw [if_pos hbounds]

/-- C3 witness: a paused deletion at a non-grid frame (fps 30, 1 sample
per second, currentTime 500 is frame 15) and an out-of-bounds logging
click both leave a concrete state untouched. -/
theorem c3_invalid_action_noop_witness :
    let s : ProjectState := ⟨[⟨0, 1, 5, 5⟩], 1, 1, false⟩
    deleteCurrent 500 30 ⟨1, 1, 5⟩ false s = s ∧
    handleLogPoint 1000 30 ⟨1, 1, 5⟩ false 1 ⟨0, 0, 1⟩ 640 480 (-3) 10 s = s := by
  constructor
  · exact (c3_invalid_action_noop 500 30 ⟨1, 1, 5⟩ false ⟨[⟨0, 1, 5, 5⟩], 1, 1, false⟩
      1 ⟨0, 0, 1⟩ 640 480 (-3) 10).1
      (Or.inr (by with_unfolding_all decide))
  · exact (c3_invalid_action_noop 1000 30 ⟨1, 1, 5⟩ false ⟨[⟨0, 1, 5, 5⟩], 1, 1, false⟩
      1 ⟨0, 0, 1⟩ 640 480 (-3) 10).2
      (Or.inr (Or.inr (Or.inl (by norm_num))))

/-- C5: for every time t ≥ 0 and fps > 0, converting t to a frame index
and back lands within one frame duration (1000/fps ms) of t. -/
theorem c5_frame_roundtrip (t fps : ℚ) (ht : 0 ≤ t) (hfps : 0 < fps) :
    |getFrameTime (getFrameIndex t fps) fps - t| ≤ 1000 / fps := by
  have hne : ¬fps ≤ 0 := not_le.mpr hfps
  unfold getFrameTime getFrameIndex jsRound
  rw [if_neg hne, if_neg hne]
  set x : ℚ := t * fps / 1000 with hx
  have h1 : (⌊x + 1/2⌋ : ℚ) ≤ x + 1/2 := Int.floor_le _
  have h2 : x + 1/2 - 1 < (⌊x + 1/2⌋ : ℚ) := Int.sub_one_lt_floor _
  have ht' : t = x * 1000 / fps := by
    rw [hx]; field_simp
  have he : (⌊x + 1/2⌋ : ℚ) * 1000 / fps - t = ((⌊x + 1/2⌋ : ℚ) - x) * (1000 / fps) := by
    rw [ht']; field_simp; ring
  rw [he, abs_mul]
  have habs : |(⌊x + 1/2⌋ : ℚ) - x| ≤ 1/2 := by
    rw [abs_le]
    constructor <;> linarith
  have hpos : (0 : ℚ) < 1000 / fps := by positivity
  calc |(⌊x + 1/2⌋ : ℚ) - x| * |1000 / fps| ≤ (1/2) * |1000 / fps| := by
        apply mul_le_mul_of_nonneg_right habs (abs_nonneg _)
    _ = (1/2) * (1000 / fps) := by rw [abs_of_pos hpos]
    _ ≤ 1000 / fps := by linarith

/-- C5 witness: t = 1010 ms at 30 fps rounds to frame 30, whose exact
time 1000 ms is 10 ms from t, well within one frame duration. -/
theorem c5_frame_roundtrip_witness :
    (0 : ℚ) ≤ 1010 ∧ (0 : ℚ) < 30 ∧
    |getFrameTime (getFrameIndex 1010 30) 30 - 1010| ≤ 1000 / 30 :=
  ⟨by norm_num, by norm_num, c5_frame_roundtrip 1010 30 (by norm_num) (by norm_num)⟩

theorem computeNextTargetFrame_gt (cf k : ℤ) (hk : 1 ≤ k) :
    k ∣ computeNextTargetFrame cf k ∧ cf < computeNextTargetFrame cf k := by
  have hkQ : (0 : ℚ) < (k : ℚ) := by exact_mod_cast lt_of_lt_of_le zero_lt_one hk
  unfold computeNextTargetFrame
  have hceil : ((cf : ℚ) + 0.1) ≤ (⌈((cf : ℚ) + 0.1) / (k : ℚ)⌉ : ℚ) * (k : ℚ) := by
    have h := Int.le_ceil (((cf : ℚ) + 0.1) / (k : ℚ))
    calc (cf : ℚ) + 0.1 = ((cf : ℚ) + 0.1) / (k : ℚ) * (k : ℚ) := by
          field_simp
      _ ≤ (⌈((cf : ℚ) + 0.1) / (k : ℚ)⌉ : ℚ) * (k : ℚ) :=
          mul_le_mul_of_nonneg_right h (le_of_lt hkQ)
  have hlt : cf < ⌈((cf : ℚ) + 0.1) / (k : ℚ)⌉ * k := by
    have h1 : (cf : ℚ) < (⌈((cf : ℚ) + 0.1) / (k : ℚ)⌉ : ℚ) * (k : ℚ) :=
      lt_of_lt_of_le (by norm_num) hceil
    have h2 : ((⌈((cf : ℚ) + 0.1) / (k : ℚ)⌉ * k : ℤ) : ℚ) =
        (⌈((cf : ℚ) + 0.1) / (k : ℚ)⌉ : ℚ) * (k : ℚ) := by push_cast; ring
    exact_mod_cast h2 ▸ h1
  rw [if_neg (not_le.mpr hlt)]
  exact ⟨dvd_mul_left k _, hlt⟩

/-- C4: the auto-pause target frame is always an exact multiple of
intervalFrames and strictly ahead of the current frame; a tick that
fires the pause with a freshly computed target snaps currentTime exactly
to getFrameTime(targetFrame, fps); a tick only ever remembers such a
grid time as the pending target; and a tick that fires the pause with a
remembered target snaps currentTime exactly to it.  Together: the pause
always lands exactly on a sampling-grid frame time. -/
theorem c4_autopause_exact (cf k : ℤ) (hcf : 0 ≤ cf) (hk : 1 ≤ k) :
    (k ∣ computeNextTargetFrame cf k ∧ cf < computeNextTargetFrame cf k) ∧
    (∀ (videoFps : ℚ) (settings : AppSettings) (isSpaceHeld : Bool) (nowMs : ℚ)
        (s : SyncState), s.nextPauseTime = none →
      (loopTick videoFps settings isSpaceHeld nowMs s).isPlaying = false →
      s.isPlaying = true →
      (loopTick videoFps settings isSpaceHeld nowMs s).currentTime =
        getFrameTime (computeNextTargetFrame (getFrameIndex nowMs videoFps)
          (intervalFramesOf settings videoFps)) videoFps) ∧
    (∀ (videoFps : ℚ) (settings : AppSettings) (isSpaceHeld : Bool) (nowMs : ℚ)
        (s : SyncState), s.nextPauseTime = none →
      (loopTick videoFps settings isSpaceHeld nowMs s).nextPauseTime = none ∨
      (loopTick videoFps settings isSpaceHeld nowMs s).nextPauseTime =
        some (getFrameTime (computeNextTargetFrame (getFrameIndex nowMs videoFps)
          (intervalFramesOf settings videoFps)) videoFps)) ∧
    (∀ (videoFps : ℚ) (settings : AppSettings) (isSpaceHeld : Bool) (nowMs : ℚ)
        (s : SyncState) (t : ℚ), s.nextPauseTime = some t →
      (loopTick videoFps settings isSpaceHeld nowMs s).isPlaying = false →
      s.isPlaying = true →
      (loopTick videoFps settings isSpaceHeld nowMs s).currentTime = t) := by
  refine ⟨computeNextTargetFrame_gt cf k hk, ?_, ?_, ?_⟩
  · intro videoFps settings isSpaceHeld nowMs s hnone hpaused hplaying
    unfold loopTick at hpaused ⊢
    rw [hnone] at hpaused ⊢
    by_cases hc : (s.isPlaying && decide (settings.samplingRateNum > 0) &&
        !isSpaceHeld) = true
    · rw [if_pos hc] at hpaused ⊢
      simp only at hpaused ⊢
      by_cases hs : getFrameTime (computeNextTargetFrame (getFrameIndex nowMs videoFps)
          (intervalFramesOf settings videoFps)) videoFps - nowMs ≤
          1000 / videoFps * 0.85
      · rw [if_pos hs]
      · rw [if_neg hs] at hpaused
        rw [hplaying] at hpaused
        cases hpaused
    · rw [if_neg hc] at hpaused
      rw [hplaying] at hpaused
      cases hpaused
  · intro videoFps settings isSpaceHeld nowMs s hnone
    unfold loopTick
    rw [hnone]
    by_cases hc : (s.isPlaying && decide (settings.samplingRateNum > 0) &&
        !isSpaceHeld) = true
    · rw [if_pos hc]
      simp only
      by_cases hs : getFrameTime (computeNextTargetFrame (getFrameIndex nowMs videoFps)
          (intervalFramesOf settings videoFps)) videoFps - nowMs ≤
          1000 / videoFps * 0.85
      · rw [if_pos hs]; exact Or.inl rfl
      · rw [if_neg hs]; exact Or.inr rfl
    · rw [if_neg hc]
      exact Or.inl rfl
  · intro videoFps settings isSpaceHeld nowMs s t hsome hpaused hplaying
    unfold loopTick at hpaused ⊢
    rw [hsome] at hpaused ⊢
    by_cases hc : (s.isPlaying && decide (settings.samplingRateNum > 0) &&
        !isSpaceHeld) = true
    · rw [if_pos hc] at hpaused ⊢
      simp only at hpaused ⊢
      by_cases hs : t - nowMs ≤ 1000 / videoFps * 0.85
      · rw [if_pos hs]
      · rw [if_neg hs] at hpaused
        rw [hplaying] at hpaused
        cases hpaused
    · rw [if_neg hc] at hpaused
      rw [hplaying] at hpaused
      cases hpaused

/-- C4 witness: at 30 fps with 1 sample/sec, a playing tick at 1980 ms
(frame 59) computes target frame 60 (a multiple of 30, ahead of 59) and,
being within 85% of a frame duration, snaps currentTime to exactly
2000 ms = getFrameTime(60, 30). -/
theorem c4_autopause_exact_witness :
    ((0 : ℤ) ≤ 59 ∧ (1 : ℤ) ≤ 30) ∧
    ((30 : ℤ) ∣ computeNextTargetFrame 59 30 ∧ (59 : ℤ) < computeNextTargetFrame 59 30) ∧
    (loopTick 30 ⟨1, 1, 5⟩ false 1980 ⟨1980, true, none⟩).currentTime =
      getFrameTime (computeNextTargetFrame (getFrameIndex 1980 30)
        (intervalFramesOf ⟨1, 1, 5⟩ 30)) 30 ∧
    (loopTick 30 ⟨1, 1, 5⟩ false 1980 ⟨1980, true, none⟩).currentTime = 2000 := by
  have h := c4_autopause_exact 59 30 (by norm_num) (by norm_num)
  refine ⟨⟨by norm_num, by norm_num⟩, h.1, ?_, ?_⟩
  · exact h.2.1 30 ⟨1, 1, 5⟩ false 1980 ⟨1980, true, none⟩ rfl
      (by with_unfolding_all decide) rfl
  · have h2 := h.2.1 30 ⟨1, 1, 5⟩ false 1980 ⟨1980, true, none⟩ rfl
      (by with_unfolding_all decide) rfl
    rw [h2]
    with_unfolding_all decide

/-- C9: with visible points of object 1 at 0, 1000 and 2000 ms (fps 30,
1 sample/sec), the navigation as actually wired by App.tsx — which omits
the hook's required fps prop, so the hook computes with undefined/NaN —
has jumpToNext from 500 ms seek NaN (`some none`) instead of 1000 ms,
while the same hook call with fps = 30 supplied seeks 1000 ms as the
specification expects; jumpToFinal and jumpToFirst happen to match the
specification even as wired. -/
theorem c9_jumpToNext_seeks_nan :
    let pts : List TrackPoint := [⟨0, 1, 10, 10⟩, ⟨1000, 1, 20, 20⟩, ⟨2000, 1, 30, 30⟩]
    let settings : AppSettings := ⟨1, 1, 5⟩
    appJumpToNext pts 30 settings 1 500 false = some none ∧
    some (none : Option ℚ) ≠ some (some (1000 : ℚ)) ∧
    jumpToNext (appVisiblePoints pts 30 settings) 1 500 false settings (some 30) =
      some (some 1000) ∧
    appJumpToFinal pts 30 settings 1 false = some (some 2000) ∧
    appJumpToFirst pts 30 settings 1 1500 false = some (some 0) := by
  with_unfolding_all decide

theorem getConstrainedTransform_def (cw ch vw vh : ℚ) (proposed : ViewTransform)
    (h : ¬vw = 0) :
    getConstrainedTransform cw ch vw vh proposed =
      let ns := max (min (min (cw / vw) (ch / vh)) MIN_SCALE) (min proposed.scale MAX_SCALE)
      ⟨if vw * ns ≤ cw then (cw - vw * ns) / 2 else max (cw - vw * ns) (min proposed.x 0),
       if vh * ns ≤ ch then (ch - vh * ns) / 2 else max (ch - vh * ns) (min proposed.y 0),
       ns⟩ := by
  unfold getConstrainedTransform
  rw [if_neg h]

/-- C8: for positive container and video dimensions, the constrained
transform's scale lies in [min(fitScale, 1), 10]; along each axis the
content is centered when it fits inside the container and otherwise the
offset is clamped to [container - scaled, 0], so the scaled video always
still intersects the container (never fully outside). -/
theorem c8_constrain_bounds (cw ch vw vh : ℚ) (proposed : ViewTransform)
    (hcw : 0 < cw) (hch : 0 < ch) (hvw : 0 < vw) (hvh : 0 < vh) :
    let r := getConstrainedTransform cw ch vw vh proposed
    let fitScale := min (cw / vw) (ch / vh)
    (min fitScale 1 ≤ r.scale ∧ r.scale ≤ 10) ∧
    (vw * r.scale ≤ cw → r.x = (cw - vw * r.scale) / 2) ∧
    (¬vw * r.scale ≤ cw → cw - vw * r.scale ≤ r.x ∧ r.x ≤ 0) ∧
    (vh * r.scale ≤ ch → r.y = (ch - vh * r.scale) / 2) ∧
    (¬vh * r.scale ≤ ch → ch - vh * r.scale ≤ r.y ∧ r.y ≤ 0) ∧
    (0 ≤ r.x + vw * r.scale ∧ r.x ≤ cw) ∧
    (0 ≤ r.y + vh * r.scale ∧ r.y ≤ ch) := by
  intro r fitScale
  have hvw' : ¬vw = 0 := ne_of_gt hvw
  have hr : r = getConstrainedTransform cw ch vw vh proposed := rfl
  rw [getConstrainedTransform_def cw ch vw vh proposed hvw'] at hr
  set ns := max (min (min (cw / vw) (ch / vh)) MIN_SCALE) (min proposed.scale MAX_SCALE)
    with hns
  have hfit_pos : 0 < fitScale := lt_min (div_pos hcw hvw) (div_pos hch hvh)
  have hscale : r.scale = ns := by rw [hr]
  have hx : r.x = if vw * ns ≤ cw then (cw - vw * ns) / 2
      else max (cw - vw * ns) (min proposed.x 0) := by rw [hr]
  have hy : r.y = if vh * ns ≤ ch then (ch - vh * ns) / 2
      else max (ch - vh * ns) (min proposed.y 0) := by rw [hr]
  have hns_lo : min fitScale 1 ≤ ns := by
    rw [hns]
    exact le_max_left _ _
  have hns_hi : ns ≤ 10 := by
    rw [hns]
    apply max_le
    · exact le_trans (min_le_right _ _) (by norm_num [MIN_SCALE])
    · exact le_trans (min_le_right _ _) (by norm_num [MAX_SCALE])
  have hns_pos : 0 < ns := by
    apply lt_of_lt_of_le _ hns_lo
    exact lt_min hfit_pos one_pos
  have hsw_pos : 0 < vw * ns := mul_pos hvw hns_pos
  have hsh_pos : 0 < vh * ns := mul_pos hvh hns_pos
  refine ⟨⟨by rw [hscale]; exact hns_lo, by rw [hscale]; exact hns_hi⟩, ?_, ?_, ?_, ?_, ?_, ?_⟩
  · intro hfits
    rw [hscale] at hfits ⊢
    rw [hx, if_pos hfits]
  · intro hbig
    rw [hscale] at hbig ⊢
    rw [hx, if_neg hbig]
    have hlt : cw - vw * ns < 0 := by
      have := not_le.mp hbig
      linarith
    exact ⟨le_max_left _ _, max_le (le_of_lt hlt) (min_le_right _ 0)⟩
  · intro hfits
    rw [hscale] at hfits ⊢
    rw [hy, if_pos hfits]
  · intro hbig
    rw [hscale] at hbig ⊢
    rw [hy, if_neg hbig]
    have hlt : ch - vh * ns < 0 := by
      have := not_le.mp hbig
      linarith
    exact ⟨le_max_left _ _, max_le (le_of_lt hlt) (min_le_right _ 0)⟩
  · rw [hscale, hx]
    by_cases hfits : vw * ns ≤ cw
    · rw [if_pos hfits]
      constructor <;> linarith
    · rw [if_neg hfits]
      have h1 : cw - vw * ns ≤ max (cw - vw * ns) (min proposed.x 0) := le_max_left _ _
      have h2 : max (cw - vw * ns) (min proposed.x 0) ≤ 0 :=
        max_le (by linarith [not_le.mp hfits]) (min_le_right _ 0)
      constructor <;> linarith
  · rw [hscale, hy]
    by_cases hfits : vh * ns ≤ ch
    · rw [if_pos hfits]
      constructor <;> linarith
    · rw [if_neg hfits]
      have h1 : ch - vh * ns ≤ max (ch - vh * ns) (min proposed.y 0) := le_max_left _ _
      have h2 : max (ch - vh * ns) (min proposed.y 0) ≤ 0 :=
        max_le (by linarith [not_le.mp hfits]) (min_le_right _ 0)
      constructor <;> linarith

/-- C8 witness: a proposal far out of bounds (offset -10000, scale 20)
against an 800x600 container and 400x300 video is clamped to scale 10
with the video still covering the container horizontally and vertically. -/
theorem c8_constrain_bounds_witness :
    (0 : ℚ) < 800 ∧ (0 : ℚ) < 600 ∧ (0 : ℚ) < 400 ∧ (0 : ℚ) < 300 ∧
    (min (min ((800 : ℚ) / 400) (600 / 300)) 1 ≤
        (getConstrainedTransform 800 600 400 300 ⟨-10000, 50, 20⟩).scale ∧
      (getConstrainedTransform 800 600 400 300 ⟨-10000, 50, 20⟩).scale ≤ 10) ∧
    0 ≤ (getConstrainedTransform 800 600 400 300 ⟨-10000, 50, 20⟩).x +
        400 * (getConstrainedTransform 800 600 400 300 ⟨-10000, 50, 20⟩).scale ∧
    (getConstrainedTransform 800 600 400 300 ⟨-10000, 50, 20⟩).x ≤ 800 := by
  have h := c8_constrain_bounds 800 600 400 300 ⟨-10000, 50, 20⟩
    (by norm_num) (by norm_num) (by norm_num) (by norm_num)
  exact ⟨by norm_num, by norm_num, by norm_num, by norm_num, h.1, h.2.2.2.2.2.1⟩

/-- C7: parseCSV's per-line loop skips blank lines (conjunct 1) and
skips exactly those data rows in which any of the four fields fails to
convert to a number (conjuncts 2 and 3); in particular (conjunct 4) an
input with a header and one malformed row "1000,a,5,5" yields a point
set missing exactly that row and containing every other well-formed row. -/
theorem c7_parse_skips_malformed :
    (∀ (num : String → Option ℚ) (raw : String),
      jsTrim raw = "" → parseLine num raw = none) ∧
    (∀ (num : String → Option ℚ) (raw : String),
      (∃ i, i < 4 ∧ ((jsSplit ',' (jsTrim raw)).map num).getD i none = none) →
      parseLine num raw = none) ∧
    (∀ (num : String → Option ℚ) (raw : String) (ts objId x y : ℚ),
      ((jsSplit ',' (jsTrim raw)).map num).getD 0 none = some ts →
      ((jsSplit ',' (jsTrim raw)).map num).getD 1 none = some objId →
      ((jsSplit ',' (jsTrim raw)).map num).getD 2 none = some x →
      ((jsSplit ',' (jsTrim raw)).map num).getD 3 none = some y →
      ¬jsTrim raw = "" →
      parseLine num raw = some ⟨ts, objId, x, y⟩) ∧
    parseCSV jsNum "timestamp_ms,object_id,x,y\n1000,1,5,5\n\n1000,a,5,5\n2000,2,7.5,8" =
      [⟨1000, 1, 5, 5⟩, ⟨2000, 2, 7.5, 8⟩] := by
  refine ⟨?_, ?_, ?_, ?_⟩
  · intro num raw h
    unfold parseLine
    rw [if_pos h]
  · intro num raw h
    obtain ⟨i, hi, hnone⟩ := h
    unfold parseLine
    by_cases hb : jsTrim raw = ""
    · rw [if_pos hb]
    · rw [if_neg hb]
      simp only
      rcases e0 : ((jsSplit ',' (jsTrim raw)).map num).getD 0 none with _ | v0 <;>
        rcases e1 : ((jsSplit ',' (jsTrim raw)).map num).getD 1 none with _ | v1 <;>
        rcases e2 : ((jsSplit ',' (jsTrim raw)).map num).getD 2 none with _ | v2 <;>
        rcases e3 : ((jsSplit ',' (jsTrim raw)).map num).getD 3 none with _ | v3 <;>
        simp only [e0, e1, e2, e3] <;>
        first
          | rfl
          | (interval_cases i <;> simp_all)
  · intro num raw ts objId x y h0 h1 h2 h3 hb
    unfold parseLine
    rw [if_neg hb]
    simp only
    rw [h0, h1, h2, h3]
  · with_unfolding_all decide

/-- C7 witness: a blank line, the malformed row of the claim, and a
well-formed row, each fed to the per-line loop. -/
theorem c7_parse_skips_malformed_witness :
    parseLine jsNum "   " = none ∧
    parseLine jsNum "1000,a,5,5" = none ∧
    parseLine jsNum "2000,2,7.5,8" = some ⟨2000, 2, 7.5, 8⟩ := by
  refine ⟨?_, ?_, ?_⟩
  · exact c7_parse_skips_malformed.1 jsNum "   " (by with_unfolding_all decide)
  · exact c7_parse_skips_malformed.2.1 jsNum "1000,a,5,5"
      ⟨1, by norm_num, by with_unfolding_all decide⟩
  · exact c7_parse_skips_malformed.2.2.1 jsNum "2000,2,7.5,8" 2000 2 7.5 8
      (by with_unfolding_all decide) (by with_unfolding_all decide)
      (by with_unfolding_all decide) (by with_unfolding_all decide)
      (by with_unfolding_all decide)

theorem splitCharList_sep_cons (sep : Char) (l : List Char) :
    splitCharList sep (sep :: l) = [] :: splitCharList sep l := by
  simp [splitCharList]

theorem splitCharList_cons_ne {sep c : Char} (h : c ≠ sep) (l : List Char) :
    splitCharList sep (c :: l) =
      (c :: (splitCharList sep l).headD []) :: (splitCharList sep l).tail := by
  simp [splitCharList, h]

theorem splitCharList_no_sep {sep : Char} {l : List Char} (h : sep ∉ l) :
    splitCharList sep l = [l] := by
  induction l with
  | nil => rfl
  | cons c cs ih =>
    have hc : c ≠ sep := fun he => h (he ▸ List.mem_cons_self c cs)
    have hcs : sep ∉ cs := fun hm => h (List.mem_cons_of_mem c hm)
    rw [splitCharList_cons_ne hc, ih hcs]
    rfl

theorem splitCharList_append {sep : Char} {l₁ : List Char} (h : sep ∉ l₁)
    (l₂ : List Char) :
    splitCharList sep (l₁ ++ sep :: l₂) = l₁ :: splitCharList sep l₂ := by
  induction l₁ with
  | nil => simpa using splitCharList_sep_cons sep l₂
  | cons c cs ih =>
    have hc : c ≠ sep := fun he => h (he ▸ List.mem_cons_self c cs)
    have hcs : sep ∉ cs := fun hm => h (List.mem_cons_of_mem c hm)
    rw [List.cons_append, splitCharList_cons_ne hc, ih hcs]
    rfl

theorem dropWhile_eq_self_of_head {l : List Char}
    (h : isWS (l.headD ' ') = false) : l.dropWhile isWS = l := by
  cases l with
  | nil => rfl
  | cons c cs =>
    simp only [List.headD_cons] at h
    rw [List.dropWhile_cons_of_neg (by simp [h])]

theorem headD_reverse (l : List Char) (d : Char) :
    l.reverse.headD d = l.getLastD d := by
  rw [List.headD_eq_head?, List.head?_reverse, List.getLastD_eq_getLast?]

theorem trimList_eq_self {l : List Char} (h1 : isWS (l.headD ' ') = false)
    (h2 : isWS (l.getLastD ' ') = false) : trimList l = l := by
  unfold trimList
  rw [dropWhile_eq_self_of_head h1]
  rw [dropWhile_eq_self_of_head (by rw [headD_reverse]; exact h2)]
  exact List.reverse_reverse l

theorem headD_append {l₁ : List Char} (h : l₁ ≠ []) (l₂ : List Char) (d : Char) :
    (l₁ ++ l₂).headD d = l₁.headD d := by
  cases l₁ with
  | nil => exact absurd rfl h
  | cons c cs => rfl

theorem getLastD_append {l₂ : List Char} (h : l₂ ≠ []) (l₁ : List Char) (d : Char) :
    (l₁ ++ l₂).getLastD d = l₂.getLastD d := by
  rw [List.getLastD_eq_getLast?, List.getLastD_eq_getLast?,
    List.getLast?_append_of_ne_nil l₁ h]

theorem getLastD_irrel {l : List Char} (h : l ≠ []) (d d' : Char) :
    l.getLastD d = l.getLastD d' := by
  rw [List.getLastD_eq_getLast?, List.getLastD_eq_getLast?]
  cases hgl : l.getLast? with
  | none => exact absurd (List.getLast?_eq_none_iff.mp hgl) h
  | some a => rfl

theorem toList_mk (l : List Char) : (String.mk l).toList = l := rfl

theorem mk_toList (s : String) : String.mk s.toList = s := rfl

theorem toList_append (a b : String) : (a ++ b).toList = a.toList ++ b.toList :=
  String.data_append a b

theorem mk_eq_empty_iff (l : List Char) : String.mk l = "" ↔ l = [] := by
  constructor
  · intro h
    exact congrArg String.toList h
  · intro h
    rw [h]

theorem row_split {A B C D : List Char} (hA : ',' ∉ A) (hB : ',' ∉ B)
    (hC : ',' ∉ C) (hD : ',' ∉ D) :
    splitCharList ',' (A ++ ',' :: (B ++ ',' :: (C ++ ',' :: D))) = [A, B, C, D] := by
  rw [splitCharList_append hA, splitCharList_append hB, splitCharList_append hC,
    splitCharList_no_sep hD]

theorem row_getLastD (A B C D : List Char) (d : Char) :
    (A ++ ',' :: (B ++ ',' :: (C ++ ',' :: D))).getLastD d = D.getLastD ',' := by
  rw [getLastD_append (List.cons_ne_nil _ _), List.getLastD_cons,
    getLastD_append (List.cons_ne_nil _ _), List.getLastD_cons,
    getLastD_append (List.cons_ne_nil _ _), List.getLastD_cons]

theorem parseLine_mk (num : String → Option ℚ) (l : List Char) (q1 q2 q3 q4 : ℚ)
    (htrim : trimList l = l) (hne : l ≠ [])
    (hsplit : (splitCharList ',' l).map (fun c => num (String.mk c)) =
      [some q1, some q2, some q3, some q4]) :
    parseLine num (String.mk l) = some ⟨q1, q2, q3, q4⟩ := by
  unfold parseLine jsTrim jsSplit
  simp only [toList_mk]
  rw [htrim]
  rw [if_neg (fun he => hne ((mk_eq_empty_iff l).mp he))]
  simp only [List.map_map]
  have hcomp : (splitCharList ',' l).map (num ∘ String.mk) =
      [some q1, some q2, some q3, some q4] := hsplit
  rw [hcomp]
  rfl

theorem parseLine_rowChars (num : String → Option ℚ) (toStr : ℚ → String)
    (p : TrackPoint) (h : csvSafePoint num toStr p) :
    parseLine num (String.mk (rowChars toStr p)) = some p := by
  obtain ⟨⟨ha1, ha2, ha3, ha4, ha5, ha6⟩, ⟨hb1, hb2, hb3, hb4, hb5, hb6⟩,
    ⟨hc1, hc2, hc3, hc4, hc5, hc6⟩, ⟨hd1, hd2, hd3, hd4, hd5, hd6⟩⟩ := h
  have hrow : rowChars toStr p =
      (toStr p.timestamp).toList ++ ',' :: ((toStr p.objectId).toList ++
        ',' :: ((toStr p.x).toList ++ ',' :: (toStr p.y).toList)) := rfl
  have htrim : trimList (rowChars toStr p) = rowChars toStr p := by
    apply trimList_eq_self
    · rw [hrow, headD_append ha4]
      exact ha5
    · rw [hrow, row_getLastD, getLastD_irrel hd4 ',' ' ']
      exact hd6
  have hne : rowChars toStr p ≠ [] := by
    rw [hrow]
    intro he
    exact ha4 (List.append_eq_nil.mp he).1
  have hsplit : (splitCharList ',' (rowChars toStr p)).map
      (fun c => num (String.mk c)) =
      [some p.timestamp, some p.objectId, some p.x, some p.y] := by
    rw [hrow, row_split ha3 hb3 hc3 hd3]
    simp only [List.map_cons, List.map_nil, mk_toList]
    rw [ha1, hb1, hc1, hd1]
  exact parseLine_mk num (rowChars toStr p) p.timestamp p.objectId p.x p.y
    htrim hne hsplit

theorem nl_not_mem_rowChars (num : String → Option ℚ) (toStr : ℚ → String)
    (p : TrackPoint) (h : csvSafePoint num toStr p) : '\n' ∉ rowChars toStr p := by
  obtain ⟨⟨ha1, ha2, _⟩, ⟨hb1, hb2, _⟩, ⟨hc1, hc2, _⟩, ⟨hd1, hd2, _⟩⟩ := h
  unfold rowChars
  intro hm
  rcases List.mem_append.mp hm with hm | hm
  · exact ha2 hm
  rcases List.mem_cons.mp hm with hm | hm
  · cases hm
  rcases List.mem_append.mp hm with hm | hm
  · exact hb2 hm
  rcases List.mem_cons.mp hm with hm | hm
  · cases hm
  rcases List.mem_append.mp hm with hm | hm
  · exact hc2 hm
  rcases List.mem_cons.mp hm with hm | hm
  · cases hm
  exact hd2 hm

theorem foldl_rows_toList (toStr : ℚ → String) (rows : List TrackPoint) :
    ∀ init : String,
      (rows.foldl (fun csv p => csv ++ toStr p.timestamp ++ "," ++ toStr p.objectId ++
          "," ++ toStr p.x ++ "," ++ toStr p.y ++ "\n") init).toList =
        init.toList ++ (rows.map (fun p => rowChars toStr p ++ ['\n'])).flatten := by
  induction rows with
  | nil => intro init; simp
  | cons p ps ih =>
    intro init
    rw [List.foldl_cons, ih, List.map_cons, List.flatten_cons]
    simp only [toList_append, rowChars]
    have hnl : ("\n" : String).toList = ['\n'] := rfl
    rw [hnl]
    have hcm : ("," : String).toList = [','] := rfl
    rw [hcm]
    simp [List.append_assoc]

theorem splitCharList_flatten (rows : List (List Char))
    (h : ∀ r ∈ rows, '\n' ∉ r) :
    splitCharList '\n' (rows.map (fun r => r ++ ['\n'])).flatten = rows ++ [[]] := by
  induction rows with
  | nil => rfl
  | cons r rs ih =>
    rw [List.map_cons, List.flatten_cons]
    have he : (r ++ ['\n']) ++ (rs.map (fun r => r ++ ['\n'])).flatten =
        r ++ '\n' :: (rs.map (fun r => r ++ ['\n'])).flatten := by
      simp
    rw [he, splitCharList_append (h r (List.mem_cons_self r rs)),
      ih (fun r hr => h r (List.mem_cons_of_mem _ hr))]
    rfl

theorem filterMap_eq_self_of {α : Type} (f : α → Option α) (l : List α)
    (h : ∀ a ∈ l, f a = some a) : l.filterMap f = l := by
  induction l with
  | nil => rfl
  | cons a l ih =>
    rw [List.filterMap_cons, h a (List.mem_cons_self a l),
      ih (fun b hb => h b (List.mem_cons_of_mem a hb))]

theorem parseCSV_pointsToCSV (num : String → Option ℚ) (toStr : ℚ → String)
    (pts : List TrackPoint)
    (h : ∀ p ∈ pts.mergeSort pointLE, csvSafePoint num toStr p) :
    parseCSV num (pointsToCSV toStr pts) = pts.mergeSort pointLE := by
  have hcsv : (pointsToCSV toStr pts).toList =
      "timestamp_ms,object_id,x,y".toList ++
        '\n' :: (((pts.mergeSort pointLE).map (rowChars toStr)).map
          (fun r => r ++ ['\n'])).flatten := by
    unfold pointsToCSV
    rw [foldl_rows_toList]
    rw [List.map_map]
    have hh : ("timestamp_ms,object_id,x,y\n" : String).toList =
        "timestamp_ms,object_id,x,y".toList ++ ['\n'] := rfl
    rw [hh, List.append_assoc]
    rfl
  have hnonl : ∀ r ∈ (pts.mergeSort pointLE).map (rowChars toStr), '\n' ∉ r := by
    intro r hr
    obtain ⟨p, hp, he⟩ := List.mem_map.mp hr
    rw [← he]
    exact nl_not_mem_rowChars num toStr p (h p hp)
  have hhdr : '\n' ∉ ("timestamp_ms,object_id,x,y" : String).toList := by decide
  have hlines : jsSplit '\n' (pointsToCSV toStr pts) =
      "timestamp_ms,object_id,x,y" ::
        (((pts.mergeSort pointLE).map (rowChars toStr)).map String.mk ++ [""]) := by
    unfold jsSplit
    rw [hcsv, splitCharList_append hhdr, splitCharList_flatten _ hnonl]
    rw [List.map_cons, List.map_append]
    rfl
  unfold parseCSV
  rw [hlines]
  simp only [List.headD_cons]
  have hinc : (if jsIncludes "timestamp_ms" "timestamp_ms,object_id,x,y" = true
      then 1 else 0) = 1 := by decide
  rw [hinc, List.drop_succ_cons, List.drop_zero, List.filterMap_append]
  have hempty : List.filterMap (parseLine num) [""] = [] := rfl
  rw [hempty, List.append_nil, List.map_map, List.filterMap_map]
  apply filterMap_eq_self_of
  intro p hp
  exact parseLine_rowChars num toStr p (h p hp)

/-- C6: for every list of points whose four numeric fields all satisfy
the formatting/parsing contract of the JavaScript built-ins (csvSafe),
parseCSV after pointsToCSV yields a list whose multiset of
(timestamp, objectId, x, y) tuples equals that of the input exactly;
the row order is the export's (timestamp, objectId)-ascending order, so
only the multiset (not the sequence) is preserved. -/
theorem c6_csv_roundtrip (num : String → Option ℚ) (toStr : ℚ → String)
    (pts : List TrackPoint) (h : ∀ q ∈ fieldValues pts, csvSafe num toStr q) :
    tupleMultiset (parseCSV num (pointsToCSV toStr pts)) = tupleMultiset pts := by
  have hperm := List.mergeSort_perm pts pointLE
  have hsafe : ∀ p ∈ pts.mergeSort pointLE, csvSafePoint num toStr p := by
    intro p hp
    have hp' : p ∈ pts := hperm.mem_iff.mp hp
    refine ⟨h _ ?_, h _ ?_, h _ ?_, h _ ?_⟩ <;>
      · unfold fieldValues
        rw [List.mem_flatMap]
        exact ⟨p, hp', by simp⟩
  rw [parseCSV_pointsToCSV num toStr pts hsafe]
  unfold tupleMultiset
  exact Multiset.coe_eq_coe.mpr (hperm.map toTuple)

/-- C6 witness: a concrete two-point list (unsorted, with a fractional
coordinate) printed with the decimal printer and re-parsed with the
Number() model keeps its tuple multiset. -/
theorem c6_csv_roundtrip_witness :
    (∀ q ∈ fieldValues [⟨1000, 2, 5, 5⟩, ⟨0, 1, 3/2, 2⟩], csvSafe jsNum decimalOfRat q) ∧
    tupleMultiset (parseCSV jsNum (pointsToCSV decimalOfRat
      [⟨1000, 2, 5, 5⟩, ⟨0, 1, 3/2, 2⟩])) =
      tupleMultiset [⟨1000, 2, 5, 5⟩, ⟨0, 1, 3/2, 2⟩] :=
  ⟨by with_unfolding_all decide,
    c6_csv_roundtrip jsNum decimalOfRat [⟨1000, 2, 5, 5⟩, ⟨0, 1, 3/2, 2⟩]
      (by with_unfolding_all decide)⟩

end ClickTrack
